import Mathlib

/-
Verification of the echoBell decision core against its specification.

Shallow embedding of:
  - src/packages/classify/intent.py   (intent resolver: classify, _confidence,
    pattern and signal-rule scoring)
  - src/apps/orchestrator/event.py    (BehaviorManager: subject persistence,
    alert cooldown suppression, scene message generation)

Python floats are embedded as rationals (ℚ); Python dicts keyed by strings are
embedded as association lists with insertion-order semantics, or as functions
String → Option _ where only lookup and pointwise update occur; fallible
operations (float conversion of a malformed value) return Except.
-/

namespace EchoBell

/-- Python truthiness helper on an optional rational: models `x or d` at type
float, where both a missing value (None) and 0.0 are falsy and yield d. -/
def pyOrQ (x : Option ℚ) (d : ℚ) : ℚ :=
  match x with
  | none => d
  | some q => if q = 0 then d else q

/-- Python truthiness helper on an optional integer: models `x or d` at type
int, where both None and 0 are falsy and yield d. -/
def pyOrI (x : Option Int) (d : Int) : Int :=
  match x with
  | none => d
  | some n => if n = 0 then d else n

/-- Python truthiness helper on an optional string: models `x or d`, where both
None and the empty string are falsy and yield d. -/
def pyOrS (x : Option String) (d : String) : String :=
  match x with
  | none => d
  | some s => if s = "" then d else s

/-- The character list n is a prefix of the character list h (Boolean). -/
def hasPre : List Char → List Char → Bool
  | _, [] => true
  | [], _ :: _ => false
  | c :: cs, d :: ds => c == d && hasPre cs ds

/-- The character list n occurs contiguously inside h (Boolean). -/
def hasSub (n : List Char) : List Char → Bool
  | [] => hasPre [] n
  | c :: rest => hasPre (c :: rest) n || hasSub n rest

/-- Python substring test `n in h` on strings. -/
def strIn (n h : String) : Bool :=
  hasSub n.toList h.toList

/-- Embeds _confidence from src/packages/classify/intent.py:
conf = 0.5 + 0.15 * raw, clamped into the closed interval between 0.4 and
0.95. -/
def _confidence (raw : ℚ) : ℚ :=
  max 0.4 (min 0.95 (0.5 + 0.15 * raw))

/-- A Python runtime value as seen by float(): either a value float() converts
to the rational q, or a value on which float() raises. -/
inductive PyVal where
  | num (q : ℚ)
  | nonNumeric
deriving DecidableEq, Repr

/-- float(v), made total by returning none where Python raises. -/
def pyFloat : PyVal → Option ℚ
  | .num q => some q
  | .nonNumeric => none

/-- Evidence from src/packages/perception/types.py. The conf field is declared
float but Python does not enforce the declared type, so it is embedded as a
PyVal to capture malformed items. -/
structure Evidence where
  source : String
  feature : String
  value : String
  conf : PyVal
deriving DecidableEq, Repr

/-- One row of pattern_def as produced by _fetch_rules: intent_name and
entity_name are already COALESCEd to the empty string; weight may be NULL. -/
structure PatternRow where
  pattern : String
  is_regex : Bool
  intent_name : String
  entity_name : String
  weight : Option ℚ
deriving DecidableEq, Repr

/-- One row of entity_def before the dict comprehension in _fetch_rules. -/
structure EntityRow where
  name : Option String
  tag : Option String
  weight : Option ℚ
deriving DecidableEq, Repr

/-- One row of signal_rule; _score_signal_rules only fetches rows with
enabled = 1. -/
structure SignalRuleRow where
  source : String
  feature : String
  operator : String
  value : String
  intent_name : String
  weight : Option ℚ
  min_conf : Option ℚ
  urgency : Option Int
  enabled : Bool
deriving DecidableEq, Repr

/-- The rule tables read by classify (the result of _fetch_rules plus the
signal_rule table). -/
structure RuleDB where
  intents : List String
  patterns : List PatternRow
  entityRows : List EntityRow
  signalRules : List SignalRuleRow
deriving DecidableEq, Repr

/-- Insertion-ordered dict update: set key k to value v, overwriting an
existing entry in place, else appending. -/
def dictSet {α : Type} (l : List (String × α)) (k : String) (v : α) :
    List (String × α) :=
  match l with
  | [] => [(k, v)]
  | (k0, v0) :: rest =>
      if k0 = k then (k, v) :: rest else (k0, v0) :: dictSet rest k v

/-- defaultdict(float) update: scores[k] += v. -/
def addScore (l : List (String × ℚ)) (k : String) (v : ℚ) : List (String × ℚ) :=
  match l with
  | [] => [(k, v)]
  | (k0, v0) :: rest =>
      if k0 = k then (k, v0 + v) :: rest else (k0, v0) :: addScore rest k v

/-- defaultdict(list) update: urgencies[k].extend(vs). -/
def addUrgs (l : List (String × List Int)) (k : String) (vs : List Int) :
    List (String × List Int) :=
  match l with
  | [] => [(k, vs)]
  | (k0, v0) :: rest =>
      if k0 = k then (k, v0 ++ vs) :: rest else (k0, v0) :: addUrgs rest k vs

/-- Dict lookup with a float default of 0.0 (a defaultdict read). -/
def scoreOf (l : List (String × ℚ)) (k : String) : ℚ :=
  match l with
  | [] => 0
  | (k0, v0) :: rest => if k0 = k then v0 else scoreOf rest k

/-- Dict lookup with a list default of [] (a defaultdict read). -/
def urgsOf (l : List (String × List Int)) (k : String) : List Int :=
  match l with
  | [] => []
  | (k0, v0) :: rest => if k0 = k then v0 else urgsOf rest k

/-- Generic dict lookup, with the given default; models dict.get(k, d). -/
def dictGet {α : Type} (l : List (String × α)) (k : String) (d : α) : α :=
  match l with
  | [] => d
  | (k0, v0) :: rest => if k0 = k then v0 else dictGet rest k d

/-- Python max(d, key=d.get) on a nonempty dict: the first key in insertion
order whose value is maximal. -/
def maxKeyAux (k : String) (v : ℚ) : List (String × ℚ) → String
  | [] => k
  | (k0, v0) :: rest =>
      if v < v0 then maxKeyAux k0 v0 rest else maxKeyAux k v rest

/-- The entity dict built in _fetch_rules:
name or empty ↦ (tag or empty, weight with NULL defaulted to 0.5). -/
def buildEntities (rows : List EntityRow) : List (String × (String × ℚ)) :=
  rows.foldl
    (fun acc r =>
      dictSet acc (pyOrS r.name "")
        (pyOrS r.tag "",
         match r.weight with
         | some w => w
         | none => 0.5))
    []

/-- Whether a pattern row hits the (already lowercased) text t. Regex search is
the external re module; it is abstracted as the oracle rm taking the pattern
and the text. Non-regex rows test pattern.lower() in t. -/
def patternHit (rm : String → String → Bool) (t : String) (r : PatternRow) :
    Bool :=
  if r.is_regex then rm r.pattern t else strIn r.pattern.toLower t

/-- One iteration of the pattern loop in classify: on a hit, add
float(weight or 0.0) to the target intent when intent_name is nonempty, and
when entity_name is nonempty and resolves to a nonempty tag, add the entity
weight (through float(ew or 0.0)) to that tag. -/
def patternStep (rm : String → String → Bool)
    (entities : List (String × (String × ℚ))) (t : String)
    (acc : List (String × ℚ)) (r : PatternRow) : List (String × ℚ) :=
  if patternHit rm t r then
    let w := pyOrQ r.weight 0
    let acc1 := if r.intent_name ≠ "" then addScore acc r.intent_name w else acc
    if r.entity_name ≠ "" then
      let te := dictGet entities r.entity_name ("", 0)
      if te.1 ≠ "" then addScore acc1 te.1 (pyOrQ (some te.2) 0) else acc1
    else acc1
  else acc

/-- text_raw_scores after initialisation (every declared intent set to 0.0)
and the pattern loop of classify. -/
def textRawScores (rm : String → String → Bool) (db : RuleDB) (t : String) :
    List (String × ℚ) :=
  db.patterns.foldl (patternStep rm (buildEntities db.entityRows) t)
    (db.intents.foldl (fun acc name => dictSet acc name 0) [])

/-- The fixed urgency_map of classify, with default 10. -/
def urgencyMap (name : String) : Int :=
  if name = "neighbor_help" then 20
  else if name = "technician_visit" then 30
  else if name = "authority_urgent" then 90
  else 10

/-- Trace entries. The Python code builds formatted strings; the embedding
keeps the data those strings carry and abstracts the decimal formatting. -/
inductive TraceEntry where
  | textBest (intent : String) (raw conf : ℚ)
  | textNoMatch
  | signalCount (n : Nat)
  | signalSkipMinConf (intent : String) (conf minConf : ℚ)
      (source feature value : String)
  | signalHit (source feature value : String) (conf : ℚ) (ruleValue : String)
      (intent : String) (weight delta total : ℚ) (urgency : Option Int)
  | signalAggregate (intent : String) (score : ℚ) (urgencies : List Int)
  | signalNoMatch
  | finalUnknown
  | finalChosen (intent : String) (score conf : ℚ) (urgency : Int)
deriving DecidableEq, Repr

/-- Accumulator of _score_signal_rules: the scores and urgencies defaultdicts
plus the trace being appended to. -/
structure SigAcc where
  scores : List (String × ℚ)
  urgencies : List (String × List Int)
  trace : List TraceEntry
deriving DecidableEq, Repr

/-- The operator dispatch of _score_signal_rules: equals compares the
normalized values, contains tests the rule value as substring of the evidence
value, any other operator never matches. -/
def opMatches (operator ruleVal evVal : String) : Bool :=
  if operator = "equals" then evVal = ruleVal
  else if operator = "contains" then strIn ruleVal evVal
  else false

/-- Whether a fetched signal rule row fires on an evidence item (same source
and feature, confidence at least the effective min_conf, operator match). -/
def signalFires (r : SignalRuleRow) (evSource evFeature evVal : String)
    (evConf : ℚ) : Bool :=
  if r.source ≠ evSource ∨ r.feature ≠ evFeature then false
  else if evConf < pyOrQ r.min_conf 0 then false
  else opMatches r.operator r.value.toLower evVal

/-- The inner loop body of _score_signal_rules for one evidence item (already
converted: value lowered to evVal, conf to evConf) against one fetched rule
row. -/
def signalRuleStep (evSource evFeature evVal : String) (evConf : ℚ)
    (acc : SigAcc) (r : SignalRuleRow) : SigAcc :=
  if r.source ≠ evSource ∨ r.feature ≠ evFeature then acc
  else
    let minC := pyOrQ r.min_conf 0
    if evConf < minC then
      { acc with trace := acc.trace ++
          [.signalSkipMinConf r.intent_name evConf minC r.source r.feature evVal] }
    else
      let ruleVal := r.value.toLower
      let matched := opMatches r.operator ruleVal evVal
      if matched then
        let w := pyOrQ r.weight 1
        let delta := w * evConf
        let scores1 := addScore acc.scores r.intent_name delta
        { scores := scores1,
          urgencies := addUrgs acc.urgencies r.intent_name [pyOrI r.urgency 10],
          trace := acc.trace ++
            [.signalHit r.source r.feature evVal evConf ruleVal r.intent_name
               w delta (scoreOf scores1 r.intent_name) r.urgency] }
      else acc

/-- The outer loop body of _score_signal_rules for one evidence item: the
float() conversion of conf raises (Except.error) on a malformed item, else the
enabled rules are folded over. -/
def signalEvidenceStep (rules : List SignalRuleRow) (acc : SigAcc)
    (ev : Evidence) : Except String SigAcc :=
  match pyFloat ev.conf with
  | none => .error "could not convert evidence conf to float"
  | some c =>
      .ok (rules.foldl (signalRuleStep ev.source ev.feature ev.value.toLower c)
        acc)

/-- The evidence loop of _score_signal_rules. -/
def signalLoop (rules : List SignalRuleRow) :
    SigAcc → List Evidence → Except String SigAcc
  | acc, [] => .ok acc
  | acc, ev :: rest =>
      match signalEvidenceStep rules acc ev with
      | .error e => .error e
      | .ok acc1 => signalLoop rules acc1 rest

/-- Embeds _score_signal_rules from src/packages/classify/intent.py: fetch the
enabled rule rows, then score every evidence item against every row,
accumulating per-intent scores, urgency lists and a trace. -/
def _score_signal_rules (db : RuleDB) (evidence : List Evidence)
    (trace : List TraceEntry) : Except String SigAcc :=
  let rows := db.signalRules.filter (fun r => r.enabled)
  let acc0 : SigAcc :=
    { scores := [], urgencies := [],
      trace := trace ++ [.signalCount evidence.length] }
  match signalLoop rows acc0 evidence with
  | .error e => .error e
  | .ok acc =>
      .ok { acc with trace := acc.trace ++
        (if acc.scores ≠ [] then
          acc.scores.map (fun p =>
            .signalAggregate p.1 p.2 (urgsOf acc.urgencies p.1))
        else [.signalNoMatch]) }

/-- Classified from src/packages/classify/intent.py. -/
structure Classified where
  intent : String
  conf : ℚ
  urgency : Int
  trace : Option (List TraceEntry) := none
deriving DecidableEq, Repr

/-- Step 1 of classify: text scoring. From text_raw_scores, when some value is
nonzero, pick the best text intent, map its raw score through _confidence, and
contribute that into the unified scores together with the fixed urgency;
otherwise contribute nothing. Returns (scores, intent_urgencies, trace). -/
def textPhase (rm : String → String → Bool) (db : RuleDB) (t : String) :
    List (String × ℚ) × List (String × List Int) × List TraceEntry :=
  match textRawScores rm db t with
  | [] => ([], [], [.textNoMatch])
  | (k, v) :: rest =>
      if ((k, v) :: rest).any (fun p => p.2 ≠ 0) then
        let best := maxKeyAux k v rest
        let raw := scoreOf ((k, v) :: rest) best
        let textConf := _confidence raw
        (addScore [] best textConf,
         addUrgs [] best [urgencyMap best],
         [.textBest best raw textConf])
      else ([], [], [.textNoMatch])

/-- Step 3 of classify: resolve the final intent from the merged scores and
urgency lists. Empty scores resolve to unknown / 0.45 / 10. -/
def finalize (scores : List (String × ℚ))
    (urgencies : List (String × List Int)) (sigTrace : List TraceEntry) :
    Classified :=
  match scores with
  | [] => ⟨"unknown", 0.45, 10, some (sigTrace ++ [.finalUnknown])⟩
  | (k, v) :: rest =>
      let best := maxKeyAux k v rest
      let total := scoreOf ((k, v) :: rest) best
      let conf := _confidence total
      let urgency :=
        match urgsOf urgencies best with
        | [] => 10
        | u :: us => us.foldl max u
      ⟨best, conf, urgency,
        some (sigTrace ++ [.finalChosen best total conf urgency])⟩

/-- Embeds classify from src/packages/classify/intent.py. The rule store read
is the db argument; re.search is the oracle rm; the debug printing is elided.
A malformed evidence item propagates as Except.error. -/
def classify (rm : String → String → Bool) (text : String)
    (evidence : List Evidence) (db : RuleDB) : Except String Classified :=
  let t := text.toLower
  let tp := textPhase rm db t
  match _score_signal_rules db evidence tp.2.2 with
  | .error e => .error e
  | .ok sig =>
      .ok (finalize
        (sig.scores.foldl (fun acc p => addScore acc p.1 p.2) tp.1)
        (sig.scores.foldl (fun acc p => addUrgs acc p.1 (urgsOf sig.urgencies p.1))
          tp.2.1)
        sig.trace)

/-- The two payload entries read by _extract_counts, after int(); a missing
key already defaulted to 0 by dict.get. -/
structure Payload where
  num_vehicles : Int := 0
  num_people : Int := 0
deriving DecidableEq, Repr

/-- Modelled from the spec: the Event dataclass is imported from a module that
is absent from src/ (src/apps/orchestrator/event.py imports it from itself);
spec section 3 describes it as source, type, optional kind, optional snapshot
reference, optional payload map, immutable. payload = none also covers an
empty (falsy) payload dict. -/
structure Event where
  source : String
  type : String
  kind : Option String := none
  snapshot : Option String := none
  payload : Option Payload := none
deriving DecidableEq, Repr

/-- SubjectState from src/apps/orchestrator/event.py. -/
structure SubjectState where
  first_seen : ℚ
  last_seen : ℚ
  alert_sent : Bool := false
deriving DecidableEq, Repr

/-- SceneSummary from src/apps/orchestrator/event.py. -/
structure SceneSummary where
  num_vehicles : Int
  num_people : Int
  last_update_ts : ℚ
deriving DecidableEq, Repr

/-- One row of the alerts table (id column elided; insertion order is the
list order). -/
structure AlertRow where
  subject_key : String
  first_seen : ℚ
  last_alert_ts : ℚ
deriving DecidableEq, Repr

/-- The dict returned by BehaviorManager.execute; message and subject_key are
only present on alerts. -/
structure Decision where
  status : String
  action : String
  message : Option String := none
  subject_key : Option String := none
deriving DecidableEq, Repr

/-- The state of a BehaviorManager instance: configuration, the in-memory
subjects dict, the remembered last scene, and the persisted alerts table. -/
structure BMState where
  min_persist : ℚ := 2
  alert_cooldown : ℚ := 60
  subjects : String → Option SubjectState
  last_scene : Option SceneSummary := none
  alerts : List AlertRow := []

/-- Embeds BehaviorManager._extract_counts: counts come from the payload when
it is truthy, then each zero count falls back to the kind heuristic. -/
def _extract_counts (evt : Event) : Int × Int :=
  let p : Int × Int :=
    match evt.payload with
    | some pl => (pl.num_vehicles, pl.num_people)
    | none => (0, 0)
  let nv := if p.1 = 0 ∧ evt.kind = some "vehicle" then 1 else p.1
  let np := if p.2 = 0 ∧ evt.kind = some "person" then 1 else p.2
  (nv, np)

/-- Embeds BehaviorManager._subject_key. -/
def _subject_key (evt : Event) (numVehicles numPeople : Int) : String :=
  evt.source ++ ":" ++ evt.type ++ ":veh=" ++ toString numVehicles ++
    ":ppl=" ++ toString numPeople

/-- The subject key execute derives for an event. -/
def eventKey (evt : Event) : String :=
  _subject_key evt (_extract_counts evt).1 (_extract_counts evt).2

/-- Maximum of a list of rationals, none when empty (the SQL
ORDER BY last_alert_ts DESC LIMIT 1). -/
def listMaxQ : List ℚ → Option ℚ
  | [] => none
  | x :: xs => some (xs.foldl max x)

/-- The newest last_alert_ts stored for a subject key. -/
def lastAlertTs (alerts : List AlertRow) (key : String) : Option ℚ :=
  listMaxQ ((alerts.filter (fun r => r.subject_key = key)).map
    (fun r => r.last_alert_ts))

/-- Embeds BehaviorManager._recent_alert_exists: true when the newest alert
row for the key is younger than alert_cooldown. -/
def _recent_alert_exists (s : BMState) (key : String) (now : ℚ) : Bool :=
  match lastAlertTs s.alerts key with
  | none => false
  | some ts => now - ts < s.alert_cooldown

/-- Embeds BehaviorManager._build_scene_message, including its overwrite of
last_scene; returns the message and the updated state. -/
def _build_scene_message (s : BMState) (evt : Event)
    (numVehicles numPeople : Int) (now : ℚ) : String × BMState :=
  let msg :=
    if evt.source = "driveway" then
      match s.last_scene with
      | none =>
          if numVehicles ≥ 1 then "A vehicle has arrived in the driveway."
          else if numPeople ≥ 1 then "Someone is in the driveway."
          else "Activity detected."
      | some prev =>
          if prev.num_vehicles = 0 then
            if numVehicles ≥ 1 then "A vehicle has arrived in the driveway."
            else if numPeople ≥ 1 then "Someone is in the driveway."
            else "Activity detected."
          else
            if numVehicles > prev.num_vehicles then
              "Another vehicle has arrived. There are now " ++
                toString numVehicles ++ " vehicles in the driveway."
            else if numPeople > prev.num_people then
              "Another person has entered the driveway. There are now " ++
                toString numPeople ++ " people in view."
            else "There is ongoing activity in the driveway."
    else if evt.source = "doorbell" then
      if numPeople ≥ 1 then "Someone is at the door."
      else if numVehicles ≥ 1 then "A vehicle has pulled up by the door."
      else "Activity detected."
    else "Activity detected."
  (msg, { s with last_scene := some ⟨numVehicles, numPeople, now⟩ })

/-- Step 2 of execute: the subject state stored for the key after the
create-or-touch of the subjects dict. -/
def stepState (s : BMState) (key : String) (now : ℚ) : SubjectState :=
  match s.subjects key with
  | none => { first_seen := now, last_seen := now, alert_sent := false }
  | some st => { st with last_seen := now }

/-- Embeds BehaviorManager.execute. The wall clock time.time() is the explicit
now argument; the sqlite alerts table is the alerts list in the state. -/
def execute (s : BMState) (evt : Event) (now : ℚ) : Decision × BMState :=
  let nv := (_extract_counts evt).1
  let np := (_extract_counts evt).2
  let key := eventKey evt
  let st0 : SubjectState := stepState s key now
  let s1 : BMState :=
    { s with subjects := fun k => if k = key then some st0 else s.subjects k }
  if now - st0.first_seen < s1.min_persist then
    (⟨"pending", "none", none, none⟩, s1)
  else if _recent_alert_exists s1 key now then
    let st1 := { st0 with alert_sent := true }
    (⟨"suppressed", "none", none, none⟩,
     { s1 with subjects := fun k => if k = key then some st1 else s1.subjects k })
  else
    let s2 := { s1 with
      alerts := s1.alerts ++ [(⟨key, st0.first_seen, now⟩ : AlertRow)] }
    let st1 := { st0 with alert_sent := true }
    let s3 :=
      { s2 with subjects := fun k => if k = key then some st1 else s2.subjects k }
    let ms := _build_scene_message s3 evt nv np now
    (⟨"alert", "speak", some ms.1, some key⟩, ms.2)

/-- A sequence of execute calls, threading the state. -/
def runCalls (s : BMState) : List (Event × ℚ) → BMState
  | [] => s
  | (e, t) :: rest => runCalls (execute s e t).2 rest

/-- The initial state of a BehaviorManager with the default configuration and
an empty alerts table. -/
def initBM : BMState := { subjects := fun _ => none }

/-- A manager configured with min_persist = 0 (alerts can fire on the first
observation). -/
def instantBM : BMState := { min_persist := 0, subjects := fun _ => none }

/-- The driveway approach event of the manual test at the bottom of
src/apps/orchestrator/event.py. -/
def evTest : Event :=
  { source := "driveway", type := "approach", kind := some "vehicle",
    snapshot := some "/tmp/fake.jpg",
    payload := some { num_vehicles := 1, num_people := 0 } }

/-- A manager state that already tracks one subject key. -/
def trackingBM : BMState :=
  { subjects := fun k => if k = "driveway:approach:veh=1:ppl=0"
      then some ⟨5, 5, false⟩ else none }

/-- A rule table with one pattern rule and one enabled signal rule, used to
exercise the no-match path of classify. -/
def dbQuiet : RuleDB :=
  { intents := ["package_drop", "visitor"],
    patterns := [
      { pattern := "zebra", is_regex := false, intent_name := "package_drop",
        entity_name := "", weight := some 1 }],
    entityRows := [],
    signalRules := [
      { source := "vision", feature := "person_present", operator := "equals",
        value := "true", intent_name := "visitor", weight := some 1,
        min_conf := some 0.5, urgency := some 10, enabled := true }] }

/-- An evidence item that matches nothing in dbQuiet. -/
def evQuiet : Evidence :=
  { source := "vision", feature := "person_present", value := "false",
    conf := .num 0.9 }

/-- An enabled signal rule whose weight and urgency are both 0 (falsy). -/
def ruleZeroW : SignalRuleRow :=
  { source := "vision", feature := "person_present", operator := "equals",
    value := "true", intent_name := "visitor", weight := some 0,
    min_conf := some 0, urgency := some 0, enabled := true }

/-- An ordinary enabled signal rule. -/
def ruleUniform : SignalRuleRow :=
  { source := "vision", feature := "uniform", operator := "equals",
    value := "Sheriff", intent_name := "authority_urgent", weight := some 0.5,
    min_conf := some 0.3, urgency := some 90, enabled := true }

/-- A matching evidence item below the min_conf of ruleUniform. -/
def evSheriffLo : Evidence :=
  { source := "vision", feature := "uniform", value := "sheriff",
    conf := .num 0.2 }

/-- A matching evidence item above the min_conf of ruleUniform. -/
def evSheriffHi : Evidence :=
  { source := "vision", feature := "uniform", value := "sheriff",
    conf := .num 0.8 }

/-- An evidence item whose conf float() cannot convert. -/
def evBroken : Evidence :=
  { source := "vision", feature := "person_present", value := "true",
    conf := .nonNumeric }

/-- A vehicle-kind event whose payload is present but carries zero counts. -/
def evZeroPayload : Event :=
  { source := "driveway", type := "approach", kind := some "vehicle",
    snapshot := none, payload := some { num_vehicles := 0, num_people := 0 } }

/-- A person-kind event with no payload at all. -/
def evPersonNoPayload : Event :=
  { source := "doorbell", type := "ring", kind := some "person",
    snapshot := none, payload := none }

/-! Helper lemmas about the decision engine. -/

lemma build_scene_state (s : BMState) (evt : Event) (nv np : Int) (now : ℚ) :
    (_build_scene_message s evt nv np now).2 =
      { s with last_scene := some ⟨nv, np, now⟩ } := rfl

lemma recent_subjects_update (s : BMState) (f : String → Option SubjectState)
    (key : String) (now : ℚ) :
    _recent_alert_exists { s with subjects := f } key now =
      _recent_alert_exists s key now := rfl

lemma stepState_some (s : BMState) (key : String) (now : ℚ) (st : SubjectState)
    (h : s.subjects key = some st) :
    stepState s key now = { st with last_seen := now } := by
  simp [stepState, h]

lemma stepState_none (s : BMState) (key : String) (now : ℚ)
    (h : s.subjects key = none) :
    stepState s key now = ⟨now, now, false⟩ := by
  simp [stepState, h]

lemma execute_pending_parts (s : BMState) (evt : Event) (now : ℚ)
    (h : now - (stepState s (eventKey evt) now).first_seen < s.min_persist) :
    (execute s evt now).1 = ⟨"pending", "none", none, none⟩ ∧
    (execute s evt now).2.alerts = s.alerts ∧
    (execute s evt now).2.last_scene = s.last_scene ∧
    (execute s evt now).2.min_persist = s.min_persist ∧
    (execute s evt now).2.alert_cooldown = s.alert_cooldown ∧
    (∀ k, k ≠ eventKey evt → (execute s evt now).2.subjects k = s.subjects k) ∧
    (execute s evt now).2.subjects (eventKey evt) =
      some (stepState s (eventKey evt) now) := by
  unfold execute
  dsimp only
  split_ifs
  refine ⟨rfl, rfl, rfl, rfl, rfl, ?_, ?_⟩
  · intro k hk
    simp [hk]
  · simp

lemma execute_suppressed_parts (s : BMState) (evt : Event) (now : ℚ)
    (h1 : ¬ now - (stepState s (eventKey evt) now).first_seen < s.min_persist)
    (h2 : _recent_alert_exists s (eventKey evt) now = true) :
    (execute s evt now).1 = ⟨"suppressed", "none", none, none⟩ ∧
    (execute s evt now).2.alerts = s.alerts ∧
    (execute s evt now).2.last_scene = s.last_scene ∧
    (execute s evt now).2.min_persist = s.min_persist ∧
    (execute s evt now).2.alert_cooldown = s.alert_cooldown ∧
    (∀ k, k ≠ eventKey evt → (execute s evt now).2.subjects k = s.subjects k) ∧
    (execute s evt now).2.subjects (eventKey evt) =
      some { stepState s (eventKey evt) now with alert_sent := true } := by
  unfold execute
  dsimp only
  split_ifs with hA
  · refine ⟨rfl, rfl, rfl, rfl, rfl, ?_, ?_⟩
    · intro k hk
      simp [hk]
    · simp
  · rw [recent_subjects_update] at hA
    exact absurd h2 hA

lemma execute_alert_parts (s : BMState) (evt : Event) (now : ℚ)
    (h1 : ¬ now - (stepState s (eventKey evt) now).first_seen < s.min_persist)
    (h2 : _recent_alert_exists s (eventKey evt) now = false) :
    (execute s evt now).1.status = "alert" ∧
    (execute s evt now).1.action = "speak" ∧
    (execute s evt now).1.subject_key = some (eventKey evt) ∧
    (execute s evt now).2.alerts = s.alerts ++
      [⟨eventKey evt, (stepState s (eventKey evt) now).first_seen, now⟩] ∧
    (execute s evt now).2.last_scene =
      some ⟨(_extract_counts evt).1, (_extract_counts evt).2, now⟩ ∧
    (execute s evt now).2.min_persist = s.min_persist ∧
    (execute s evt now).2.alert_cooldown = s.alert_cooldown ∧
    (∀ k, k ≠ eventKey evt → (execute s evt now).2.subjects k = s.subjects k) ∧
    (execute s evt now).2.subjects (eventKey evt) =
      some { stepState s (eventKey evt) now with alert_sent := true } := by
  unfold execute
  dsimp only
  split_ifs with hA
  · rw [recent_subjects_update, h2] at hA
    exact absurd hA (by simp)
  · rw [build_scene_state]
    refine ⟨rfl, rfl, rfl, rfl, rfl, rfl, rfl, ?_, ?_⟩
    · intro k hk
      simp [hk]
    · simp

lemma listMaxQ_append_singleton (l : List ℚ) (x : ℚ) :
    listMaxQ (l ++ [x]) =
      some (match listMaxQ l with
            | none => x
            | some m => max m x) := by
  cases l with
  | nil => rfl
  | cons y ys => simp [listMaxQ, List.foldl_append]

lemma lastAlertTs_append_other (alerts : List AlertRow) (r : AlertRow)
    (k : String) (h : r.subject_key ≠ k) :
    lastAlertTs (alerts ++ [r]) k = lastAlertTs alerts k := by
  unfold lastAlertTs
  rw [List.filter_append]
  simp [List.filter, h]

lemma lastAlertTs_append_self (alerts : List AlertRow) (r : AlertRow)
    (k : String) (h : r.subject_key = k) :
    lastAlertTs (alerts ++ [r]) k =
      some (match lastAlertTs alerts k with
            | none => r.last_alert_ts
            | some m => max m r.last_alert_ts) := by
  unfold lastAlertTs
  rw [List.filter_append]
  simp only [List.filter, h, decide_True, List.map_append, List.map_cons,
    List.map_nil]
  exact listMaxQ_append_singleton _ _

/-- A single execute call at a time m still inside the cooldown window of the
newest alert row for key k leaves that newest row unchanged. -/
lemma execute_keeps_lastAlert (s : BMState) (e : Event) (m : ℚ) (k : String)
    (t : ℚ) (hlast : lastAlertTs s.alerts k = some t)
    (hcool : m - t < s.alert_cooldown) :
    lastAlertTs (execute s e m).2.alerts k = some t := by
  by_cases h1 : m - (stepState s (eventKey e) m).first_seen < s.min_persist
  · rw [(execute_pending_parts s e m h1).2.1, hlast]
  · by_cases h2 : _recent_alert_exists s (eventKey e) m = true
    · rw [(execute_suppressed_parts s e m h1 h2).2.1, hlast]
    · rw [Bool.not_eq_true] at h2
      by_cases hk : eventKey e = k
      · exfalso
        have : _recent_alert_exists s (eventKey e) m = true := by
          unfold _recent_alert_exists
          rw [hk, hlast]
          simp [hcool]
        rw [this] at h2
        exact Bool.noConfusion h2
      · rw [(execute_alert_parts s e m h1 h2).2.2.2.1]
        rw [lastAlertTs_append_other _ _ _ hk, hlast]

/-- Field preservation along any single execute call. -/
lemma execute_config (s : BMState) (e : Event) (m : ℚ) :
    (execute s e m).2.min_persist = s.min_persist ∧
    (execute s e m).2.alert_cooldown = s.alert_cooldown := by
  by_cases h1 : m - (stepState s (eventKey e) m).first_seen < s.min_persist
  · have h := execute_pending_parts s e m h1
    exact ⟨h.2.2.2.1, h.2.2.2.2.1⟩
  · by_cases h2 : _recent_alert_exists s (eventKey e) m = true
    · have h := execute_suppressed_parts s e m h1 h2
      exact ⟨h.2.2.2.1, h.2.2.2.2.1⟩
    · rw [Bool.not_eq_true] at h2
      have h := execute_alert_parts s e m h1 h2
      exact ⟨h.2.2.2.2.2.1, h.2.2.2.2.2.2.1⟩

/-- A subject already present in the subjects dict stays present across any
execute call; first_seen is never changed, and only last_seen and alert_sent
can be updated (to now and true respectively). -/
lemma execute_subject_preserved (s : BMState) (e : Event) (m : ℚ) (k : String)
    (st : SubjectState) (h : s.subjects k = some st) :
    ∃ st', (execute s e m).2.subjects k = some st' ∧
      st'.first_seen = st.first_seen ∧
      (st'.last_seen = st.last_seen ∨ st'.last_seen = m) ∧
      (st'.alert_sent = st.alert_sent ∨ st'.alert_sent = true) := by
  by_cases hk : k = eventKey e
  · subst hk
    have hstep : stepState s (eventKey e) m = { st with last_seen := m } :=
      stepState_some s (eventKey e) m st h
    by_cases h1 : m - (stepState s (eventKey e) m).first_seen < s.min_persist
    · refine ⟨{ st with last_seen := m }, ?_, rfl, Or.inr rfl, Or.inl rfl⟩
      rw [(execute_pending_parts s e m h1).2.2.2.2.2.2, hstep]
    · by_cases h2 : _recent_alert_exists s (eventKey e) m = true
      · refine ⟨{ st with last_seen := m, alert_sent := true }, ?_, rfl,
          Or.inr rfl, Or.inr rfl⟩
        rw [(execute_suppressed_parts s e m h1 h2).2.2.2.2.2.2, hstep]
      · rw [Bool.not_eq_true] at h2
        refine ⟨{ st with last_seen := m, alert_sent := true }, ?_, rfl,
          Or.inr rfl, Or.inr rfl⟩
        rw [(execute_alert_parts s e m h1 h2).2.2.2.2.2.2.2.2, hstep]
  · refine ⟨st, ?_, rfl, Or.inl rfl, Or.inl rfl⟩
    by_cases h1 : m - (stepState s (eventKey e) m).first_seen < s.min_persist
    · rw [(execute_pending_parts s e m h1).2.2.2.2.2.1 k hk, h]
    · by_cases h2 : _recent_alert_exists s (eventKey e) m = true
      · rw [(execute_suppressed_parts s e m h1 h2).2.2.2.2.2.1 k hk, h]
      · rw [Bool.not_eq_true] at h2
        rw [(execute_alert_parts s e m h1 h2).2.2.2.2.2.2.2.1 k hk, h]

/-- The invariant carried across a block of intermediate calls: the newest
alert row for k stays at t as long as every call is still inside the cooldown
window, and the configuration never changes. -/
lemma runCalls_invariant (k : String) (t : ℚ) :
    ∀ (calls : List (Event × ℚ)) (s : BMState),
      lastAlertTs s.alerts k = some t →
      (∀ p ∈ calls, p.2 - t < s.alert_cooldown) →
      lastAlertTs (runCalls s calls).alerts k = some t ∧
      (runCalls s calls).alert_cooldown = s.alert_cooldown ∧
      (runCalls s calls).min_persist = s.min_persist := by
  intro calls
  induction calls with
  | nil => exact fun s hl _ => ⟨hl, rfl, rfl⟩
  | cons p rest ih =>
      intro s hl hc
      obtain ⟨e, m⟩ := p
      have hm : m - t < s.alert_cooldown := hc (e, m) (List.mem_cons_self _ _)
      have hl1 : lastAlertTs (execute s e m).2.alerts k = some t :=
        execute_keeps_lastAlert s e m k t hl hm
      have hcfg := execute_config s e m
      have hrest : ∀ p ∈ rest, p.2 - t < (execute s e m).2.alert_cooldown := by
        intro q hq
        rw [hcfg.2]
        exact hc q (List.mem_cons_of_mem _ hq)
      have := ih (execute s e m).2 hl1 hrest
      simp only [runCalls]
      exact ⟨this.1, by rw [this.2.1, hcfg.2], by rw [this.2.2, hcfg.1]⟩

/-- Subject presence and first_seen survive any block of calls. -/
lemma runCalls_subject (k : String) :
    ∀ (calls : List (Event × ℚ)) (s : BMState) (st : SubjectState),
      s.subjects k = some st →
      ∃ st', (runCalls s calls).subjects k = some st' ∧
        st'.first_seen = st.first_seen := by
  intro calls
  induction calls with
  | nil => exact fun s st h => ⟨st, h, rfl⟩
  | cons p rest ih =>
      intro s st h
      obtain ⟨e, m⟩ := p
      obtain ⟨st1, hst1, hfs, -, -⟩ := execute_subject_preserved s e m k st h
      obtain ⟨st2, hst2, hfs2⟩ := ih (execute s e m).2 st1 hst1
      simp only [runCalls]
      exact ⟨st2, hst2, by rw [hfs2, hfs]⟩

/-- Inversion: a call that returned status alert took the alert branch, so
the persistence gate passed and no recent alert row existed. -/
lemma execute_status_alert (s : BMState) (e : Event) (t : ℚ)
    (h : (execute s e t).1.status = "alert") :
    ¬ t - (stepState s (eventKey e) t).first_seen < s.min_persist ∧
    _recent_alert_exists s (eventKey e) t = false := by
  by_cases h1 : t - (stepState s (eventKey e) t).first_seen < s.min_persist
  · rw [(execute_pending_parts s e t h1).1] at h
    simp at h
  · by_cases h2 : _recent_alert_exists s (eventKey e) t = true
    · rw [(execute_suppressed_parts s e t h1 h2).1] at h
      simp at h
    · rw [Bool.not_eq_true] at h2
      exact ⟨h1, h2⟩

/-- After a successful alert at time t, the newest alert row for the key is
exactly t (older rows are at least one cooldown older). -/
lemma execute_alert_lastAlert (s : BMState) (e : Event) (t : ℚ)
    (h1 : ¬ t - (stepState s (eventKey e) t).first_seen < s.min_persist)
    (h2 : _recent_alert_exists s (eventKey e) t = false)
    (hpos : 0 < s.alert_cooldown) :
    lastAlertTs (execute s e t).2.alerts (eventKey e) = some t := by
  rw [(execute_alert_parts s e t h1 h2).2.2.2.1]
  rw [lastAlertTs_append_self _ _ _ rfl]
  unfold _recent_alert_exists at h2
  cases hl : lastAlertTs s.alerts (eventKey e) with
  | none => rfl
  | some m =>
      rw [hl] at h2
      simp only [decide_eq_false_iff_not, not_lt] at h2
      have hm : m ≤ t := by linarith
      simp [max_eq_right hm]

/-! Claim theorems. -/

/-- C2: for a subject key whose SubjectState carries first_seen = t0 (or is
being created by this very call, in which case t0 = now), an execute call
strictly inside the min_persist window returns status pending with action
none, and a call at or past the window returns a non-pending decision,
namely suppressed or alert. -/
theorem C2_min_persist_gate (s : BMState) (evt : Event) (now t0 : ℚ)
    (hfs : match s.subjects (eventKey evt) with
           | none => t0 = now
           | some st => st.first_seen = t0) :
    (now - t0 < s.min_persist →
      (execute s evt now).1 = ⟨"pending", "none", none, none⟩) ∧
    (s.min_persist ≤ now - t0 →
      (execute s evt now).1.status = "suppressed" ∨
      (execute s evt now).1.status = "alert") := by
  have hfs' : (stepState s (eventKey evt) now).first_seen = t0 := by
    cases hsub : s.subjects (eventKey evt) with
    | none =>
        rw [stepState_none s _ now hsub]
        rw [hsub] at hfs
        exact hfs.symm
    | some st =>
        rw [stepState_some s _ now st hsub]
        rw [hsub] at hfs
        exact hfs
  constructor
  · intro hlt
    have h1 : now - (stepState s (eventKey evt) now).first_seen <
        s.min_persist := by rw [hfs']; exact hlt
    exact (execute_pending_parts s evt now h1).1
  · intro hge
    have h1 : ¬ now - (stepState s (eventKey evt) now).first_seen <
        s.min_persist := by rw [hfs']; exact not_lt.mpr hge
    by_cases h2 : _recent_alert_exists s (eventKey evt) now = true
    · left
      rw [(execute_suppressed_parts s evt now h1 h2).1]
    · right
      rw [Bool.not_eq_true] at h2
      exact (execute_alert_parts s evt now h1 h2).1

/-- C2 witness: with the default min_persist = 2, the creating call at time 0
is pending, and the call at time 3 (past the window) is non-pending. -/
theorem C2_min_persist_gate_witness :
    ((execute initBM evTest 0).1 = ⟨"pending", "none", none, none⟩) ∧
    ((execute (execute initBM evTest 0).2 evTest 3).1.status = "suppressed" ∨
     (execute (execute initBM evTest 0).2 evTest 3).1.status = "alert") :=
  ⟨(C2_min_persist_gate initBM evTest 0 0 (by with_unfolding_all exact rfl)).1
      (by norm_num [initBM]),
   (C2_min_persist_gate (execute initBM evTest 0).2 evTest 3 0
      (by with_unfolding_all exact rfl)).2
      (by
        have : (execute initBM evTest 0).2.min_persist = 2 := by
          with_unfolding_all decide
        rw [this]
        norm_num)⟩

/-- C9: the remembered SceneSummary is overwritten, with the current counts
and timestamp, exactly by the execute calls that return status alert; any
call returning another status leaves last_scene unchanged. -/
theorem C9_last_scene_only_on_alert (s : BMState) (evt : Event) (now : ℚ) :
    ((execute s evt now).1.status = "alert" →
      (execute s evt now).2.last_scene =
        some ⟨(_extract_counts evt).1, (_extract_counts evt).2, now⟩) ∧
    ((execute s evt now).1.status ≠ "alert" →
      (execute s evt now).2.last_scene = s.last_scene) := by
  by_cases h1 : now - (stepState s (eventKey evt) now).first_seen <
      s.min_persist
  · have h := execute_pending_parts s evt now h1
    constructor
    · intro hs
      rw [h.1] at hs
      simp at hs
    · intro _
      exact h.2.2.1
  · by_cases h2 : _recent_alert_exists s (eventKey evt) now = true
    · have h := execute_suppressed_parts s evt now h1 h2
      constructor
      · intro hs
        rw [h.1] at hs
        simp at hs
      · intro _
        exact h.2.2.1
    · rw [Bool.not_eq_true] at h2
      have h := execute_alert_parts s evt now h1 h2
      constructor
      · intro _
        exact h.2.2.2.2.1
      · intro hs
        exact absurd h.1 hs

/-- C9 witness: the pending call at time 0 keeps last_scene = none; the
alerting call at time 3 overwrites it with the current counts and time. -/
theorem C9_last_scene_only_on_alert_witness :
    (execute initBM evTest 0).2.last_scene = initBM.last_scene ∧
    (execute (execute initBM evTest 0).2 evTest 3).2.last_scene =
      some ⟨(_extract_counts evTest).1, (_extract_counts evTest).2, 3⟩ :=
  ⟨(C9_last_scene_only_on_alert initBM evTest 0).2
      (by with_unfolding_all decide),
   (C9_last_scene_only_on_alert (execute initBM evTest 0).2 evTest 3).1
      (by with_unfolding_all decide)⟩

/-- C10: a key present in the subjects dict is never removed by execute, its
first_seen is never modified (a single call may only update last_seen to now
and alert_sent to true), and along any sequence of calls the key stays
present with its original first_seen, so the min_persist window never
restarts. -/
theorem C10_first_seen_immutable (s : BMState) (k : String)
    (st : SubjectState) (h : s.subjects k = some st) :
    (∀ evt now, ∃ st', (execute s evt now).2.subjects k = some st' ∧
      st'.first_seen = st.first_seen ∧
      (st'.last_seen = st.last_seen ∨ st'.last_seen = now) ∧
      (st'.alert_sent = st.alert_sent ∨ st'.alert_sent = true)) ∧
    (∀ calls, ∃ st', (runCalls s calls).subjects k = some st' ∧
      st'.first_seen = st.first_seen) :=
  ⟨fun evt now => execute_subject_preserved s evt now k st h,
   fun calls => runCalls_subject k calls s st h⟩

/-- C10 witness: the tracked key survives an execute call with its first_seen
intact, and also survives a two-call sequence. -/
theorem C10_first_seen_immutable_witness :
    (∃ st', (execute trackingBM evTest 9).2.subjects
        "driveway:approach:veh=1:ppl=0" = some st' ∧
      st'.first_seen = (5 : ℚ) ∧
      (st'.last_seen = (5 : ℚ) ∨ st'.last_seen = 9) ∧
      (st'.alert_sent = false ∨ st'.alert_sent = true)) ∧
    (∃ st', (runCalls trackingBM [(evTest, 9), (evTest, 10)]).subjects
        "driveway:approach:veh=1:ppl=0" = some st' ∧
      st'.first_seen = (5 : ℚ)) :=
  ⟨(C10_first_seen_immutable trackingBM "driveway:approach:veh=1:ppl=0"
      ⟨5, 5, false⟩ (by with_unfolding_all decide)).1 evTest 9,
   (C10_first_seen_immutable trackingBM "driveway:approach:veh=1:ppl=0"
      ⟨5, 5, false⟩ (by with_unfolding_all decide)).2
      [(evTest, 9), (evTest, 10)]⟩

/-- C1: after a call returns an alert for a subject key at time t, every later
call for the same key, at a time inside the cooldown window, with any
intermediate calls also inside the window, returns status suppressed with
action none, marks alert_sent = true, and writes no row to the alerts
history. Hence no two calls for the same key both alert within
alert_cooldown of each other. -/
theorem C1_cooldown_suppression (s : BMState) (e : Event) (t : ℚ)
    (mids : List (Event × ℚ)) (e' : Event) (t' : ℚ)
    (halert : (execute s e t).1.status = "alert")
    (hkey : eventKey e' = eventKey e)
    (ht : t ≤ t')
    (hcool : t' - t < s.alert_cooldown)
    (hmids : ∀ p ∈ mids, p.2 - t < s.alert_cooldown) :
    (execute (runCalls (execute s e t).2 mids) e' t').1 =
      ⟨"suppressed", "none", none, none⟩ ∧
    (execute (runCalls (execute s e t).2 mids) e' t').2.alerts =
      (runCalls (execute s e t).2 mids).alerts ∧
    (∃ st, (execute (runCalls (execute s e t).2 mids) e' t').2.subjects
        (eventKey e) = some st ∧ st.alert_sent = true) := by
  obtain ⟨h1, h2⟩ := execute_status_alert s e t halert
  have hpos : 0 < s.alert_cooldown := lt_of_le_of_lt (by linarith) hcool
  have hlast1 : lastAlertTs (execute s e t).2.alerts (eventKey e) = some t :=
    execute_alert_lastAlert s e t h1 h2 hpos
  have hcfg1 := execute_config s e t
  have hmids1 : ∀ p ∈ mids, p.2 - t < (execute s e t).2.alert_cooldown := by
    intro p hp
    rw [hcfg1.2]
    exact hmids p hp
  obtain ⟨hlast2, hcd2, hmp2⟩ :=
    runCalls_invariant (eventKey e) t mids (execute s e t).2 hlast1 hmids1
  have hsub1 : (execute s e t).2.subjects (eventKey e) =
      some { stepState s (eventKey e) t with alert_sent := true } :=
    (execute_alert_parts s e t h1 h2).2.2.2.2.2.2.2.2
  obtain ⟨st2, hst2, hfs2⟩ := runCalls_subject (eventKey e) mids
    (execute s e t).2 _ hsub1
  have hfs0 : st2.first_seen = (stepState s (eventKey e) t).first_seen := hfs2
  have hstep2 : stepState (runCalls (execute s e t).2 mids) (eventKey e') t' =
      { st2 with last_seen := t' } := by
    rw [hkey]
    exact stepState_some _ _ t' st2 hst2
  have hpersist : ¬ t' - (stepState (runCalls (execute s e t).2 mids)
      (eventKey e') t').first_seen <
      (runCalls (execute s e t).2 mids).min_persist := by
    rw [hstep2]
    dsimp only
    rw [hfs0, hmp2, hcfg1.1]
    intro hlt
    exact h1 (by linarith)
  have hrecent2 : _recent_alert_exists (runCalls (execute s e t).2 mids)
      (eventKey e') t' = true := by
    rw [hkey]
    unfold _recent_alert_exists
    rw [hlast2, hcd2, hcfg1.2]
    simp [hcool]
  have hsup := execute_suppressed_parts _ e' t' hpersist hrecent2
  refine ⟨hsup.1, hsup.2.1, ?_⟩
  refine ⟨{ stepState (runCalls (execute s e t).2 mids) (eventKey e') t' with
    alert_sent := true }, ?_, rfl⟩
  rw [← hkey]
  exact hsup.2.2.2.2.2.2

/-- C1 witness: with min_persist = 0 the first call alerts at time 0; the call
at time 1 (inside the 60 second cooldown) is suppressed, writes nothing, and
marks alert_sent. -/
theorem C1_cooldown_suppression_witness :
    (execute (runCalls (execute instantBM evTest 0).2 []) evTest 1).1 =
      ⟨"suppressed", "none", none, none⟩ ∧
    (execute (runCalls (execute instantBM evTest 0).2 []) evTest 1).2.alerts =
      (runCalls (execute instantBM evTest 0).2 []).alerts ∧
    (∃ st, (execute (runCalls (execute instantBM evTest 0).2 []) evTest
        1).2.subjects (eventKey evTest) = some st ∧ st.alert_sent = true) :=
  C1_cooldown_suppression instantBM evTest 0 [] evTest 1
    (by with_unfolding_all decide) rfl (by norm_num)
    (by
      have : instantBM.alert_cooldown = 60 := rfl
      rw [this]
      norm_num)
    (by simp)

/-! Helper lemmas about the intent resolver. -/

lemma patternStep_no_hit (rm : String → String → Bool)
    (entities : List (String × (String × ℚ))) (t : String)
    (acc : List (String × ℚ)) (r : PatternRow)
    (h : patternHit rm t r = false) :
    patternStep rm entities t acc r = acc := by
  simp [patternStep, h]

lemma foldl_patternStep_no_hits (rm : String → String → Bool)
    (entities : List (String × (String × ℚ))) (t : String) :
    ∀ (ps : List PatternRow) (acc : List (String × ℚ)),
      (∀ r ∈ ps, patternHit rm t r = false) →
      ps.foldl (patternStep rm entities t) acc = acc := by
  intro ps
  induction ps with
  | nil => intro acc _; rfl
  | cons r rest ih =>
      intro acc h
      rw [List.foldl_cons,
        patternStep_no_hit rm entities t acc r (h r (List.mem_cons_self _ _))]
      exact ih acc fun q hq => h q (List.mem_cons_of_mem _ hq)

lemma dictSet_mem {α : Type} (k : String) (v : α) :
    ∀ (l : List (String × α)) (p : String × α),
      p ∈ dictSet l k v → p ∈ l ∨ p.2 = v := by
  intro l
  induction l with
  | nil =>
      intro p hp
      unfold dictSet at hp
      rw [List.mem_singleton] at hp
      exact Or.inr (by rw [hp])
  | cons q rest ih =>
      intro p hp
      unfold dictSet at hp
      by_cases hk : q.1 = k
      · rw [if_pos hk] at hp
        rcases List.mem_cons.mp hp with h0 | h0
        · exact Or.inr (by rw [h0])
        · exact Or.inl (List.mem_cons_of_mem _ h0)
      · rw [if_neg hk] at hp
        rcases List.mem_cons.mp hp with h0 | h0
        · exact Or.inl (by rw [h0]; exact List.mem_cons_self _ _)
        · rcases ih p h0 with h1 | h1
          · exact Or.inl (List.mem_cons_of_mem _ h1)
          · exact Or.inr h1

lemma foldl_dictSet_zero :
    ∀ (intents : List String) (acc : List (String × ℚ)),
      (∀ p ∈ acc, p.2 = 0) →
      ∀ p ∈ intents.foldl (fun acc name => dictSet acc name 0) acc, p.2 = 0 := by
  intro intents
  induction intents with
  | nil => intro acc h; exact h
  | cons n rest ih =>
      intro acc h
      rw [List.foldl_cons]
      apply ih
      intro p hp
      rcases dictSet_mem n 0 acc p hp with h0 | h0
      · exact h p h0
      · exact h0

lemma textRawScores_no_hits (rm : String → String → Bool) (db : RuleDB)
    (t : String) (h : ∀ r ∈ db.patterns, patternHit rm t r = false) :
    textRawScores rm db t =
      db.intents.foldl (fun acc name => dictSet acc name 0) [] := by
  unfold textRawScores
  exact foldl_patternStep_no_hits rm (buildEntities db.entityRows) t
    db.patterns _ h

lemma textPhase_no_hits (rm : String → String → Bool) (db : RuleDB)
    (t : String) (h : ∀ r ∈ db.patterns, patternHit rm t r = false) :
    (textPhase rm db t).1 = [] ∧ (textPhase rm db t).2.1 = [] := by
  unfold textPhase
  rw [textRawScores_no_hits rm db t h]
  have hall : ∀ p ∈ db.intents.foldl (fun acc name => dictSet acc name 0)
      ([] : List (String × ℚ)), p.2 = 0 :=
    foldl_dictSet_zero db.intents [] (by intro p hp; cases hp)
  split
  · exact ⟨rfl, rfl⟩
  next k v rest heq =>
    rw [heq] at hall
    have hcond : (((k, v) :: rest).any fun q => decide (q.2 ≠ 0)) = false := by
      rw [List.any_eq_false]
      intro q hq
      simpa using hall q hq
    rw [hcond]
    simp

lemma signalRuleStep_no_fire (r : SignalRuleRow)
    (evSource evFeature evVal : String) (c : ℚ) (acc : SigAcc)
    (h : signalFires r evSource evFeature evVal c = false) :
    (signalRuleStep evSource evFeature evVal c acc r).scores = acc.scores ∧
    (signalRuleStep evSource evFeature evVal c acc r).urgencies =
      acc.urgencies := by
  unfold signalFires at h
  unfold signalRuleStep
  dsimp only
  split_ifs at h ⊢ <;>
    first
      | exact ⟨rfl, rfl⟩
      | simp_all

lemma foldl_signalRuleStep_no_fire (evSource evFeature evVal : String)
    (c : ℚ) :
    ∀ (rules : List SignalRuleRow) (acc : SigAcc),
      (∀ r ∈ rules, signalFires r evSource evFeature evVal c = false) →
      ((rules.foldl (signalRuleStep evSource evFeature evVal c) acc).scores =
        acc.scores ∧
       (rules.foldl (signalRuleStep evSource evFeature evVal c) acc).urgencies
        = acc.urgencies) := by
  intro rules
  induction rules with
  | nil => intro acc _; exact ⟨rfl, rfl⟩
  | cons r rest ih =>
      intro acc h
      rw [List.foldl_cons]
      have h0 := signalRuleStep_no_fire r evSource evFeature evVal c acc
        (h r (List.mem_cons_self _ _))
      have h1 := ih (signalRuleStep evSource evFeature evVal c acc r)
        fun q hq => h q (List.mem_cons_of_mem _ hq)
      exact ⟨by rw [h1.1, h0.1], by rw [h1.2, h0.2]⟩

lemma signalLoop_no_fire (rules : List SignalRuleRow) :
    ∀ (l : List Evidence) (acc : SigAcc),
      (∀ ev ∈ l, ∃ c, pyFloat ev.conf = some c ∧
        ∀ r ∈ rules, signalFires r ev.source ev.feature ev.value.toLower c =
          false) →
      ∃ acc', signalLoop rules acc l = .ok acc' ∧
        acc'.scores = acc.scores ∧ acc'.urgencies = acc.urgencies := by
  intro l
  induction l with
  | nil => intro acc _; exact ⟨acc, rfl, rfl, rfl⟩
  | cons ev rest ih =>
      intro acc h
      obtain ⟨c, hc, hfires⟩ := h ev (List.mem_cons_self _ _)
      have hstep : signalEvidenceStep rules acc ev =
          .ok (rules.foldl
            (signalRuleStep ev.source ev.feature ev.value.toLower c) acc) := by
        unfold signalEvidenceStep
        rw [hc]
      have hfold := foldl_signalRuleStep_no_fire ev.source ev.feature
        ev.value.toLower c rules acc hfires
      obtain ⟨acc', hok, hsc, hur⟩ := ih
        (rules.foldl (signalRuleStep ev.source ev.feature ev.value.toLower c)
          acc)
        fun q hq => h q (List.mem_cons_of_mem _ hq)
      refine ⟨acc', ?_, by rw [hsc, hfold.1], by rw [hur, hfold.2]⟩
      unfold signalLoop
      rw [hstep]
      exact hok

lemma score_signal_rules_no_fire (db : RuleDB) (evidence : List Evidence)
    (trace : List TraceEntry)
    (h : ∀ ev ∈ evidence, ∃ c, pyFloat ev.conf = some c ∧
      ∀ r ∈ db.signalRules.filter (fun r => r.enabled),
        signalFires r ev.source ev.feature ev.value.toLower c = false) :
    ∃ acc', _score_signal_rules db evidence trace = .ok acc' ∧
      acc'.scores = [] ∧ acc'.urgencies = [] := by
  obtain ⟨acc', hok, hsc, hur⟩ := signalLoop_no_fire
    (db.signalRules.filter (fun r => r.enabled)) evidence
    { scores := [], urgencies := [],
      trace := trace ++ [.signalCount evidence.length] } h
  refine ⟨{ acc' with trace := acc'.trace ++
    (if acc'.scores ≠ [] then
      acc'.scores.map (fun p => .signalAggregate p.1 p.2 (urgsOf acc'.urgencies p.1))
    else [.signalNoMatch]) }, ?_, hsc, hur⟩
  unfold _score_signal_rules
  dsimp only
  rw [hok]

lemma signalLoop_error (rules : List SignalRuleRow) :
    ∀ (l : List Evidence) (acc : SigAcc),
      (∃ ev ∈ l, pyFloat ev.conf = none) →
      ∃ msg, signalLoop rules acc l = .error msg := by
  intro l
  induction l with
  | nil =>
      intro acc h
      obtain ⟨ev, hmem, -⟩ := h
      exact absurd hmem (List.not_mem_nil ev)
  | cons ev rest ih =>
      intro acc h
      cases hc : pyFloat ev.conf with
      | none =>
          refine ⟨"could not convert evidence conf to float", ?_⟩
          unfold signalLoop signalEvidenceStep
          rw [hc]
      | some c =>
          have hstep : signalEvidenceStep rules acc ev =
              .ok (rules.foldl
                (signalRuleStep ev.source ev.feature ev.value.toLower c)
                acc) := by
            unfold signalEvidenceStep
            rw [hc]
          obtain ⟨ev0, hmem, hnone⟩ := h
          rcases List.mem_cons.mp hmem with h0 | h0
          · subst h0
            rw [hc] at hnone
            exact absurd hnone (by simp)
          · obtain ⟨msg, hmsg⟩ := ih _ ⟨ev0, h0, hnone⟩
            refine ⟨msg, ?_⟩
            unfold signalLoop
            rw [hstep]
            exact hmsg

lemma score_signal_rules_error (db : RuleDB) (evidence : List Evidence)
    (trace : List TraceEntry)
    (h : ∃ ev ∈ evidence, pyFloat ev.conf = none) :
    ∃ msg, _score_signal_rules db evidence trace = .error msg := by
  obtain ⟨msg, hmsg⟩ := signalLoop_error
    (db.signalRules.filter (fun r => r.enabled)) evidence
    { scores := [], urgencies := [],
      trace := trace ++ [.signalCount evidence.length] } h
  refine ⟨msg, ?_⟩
  unfold _score_signal_rules
  dsimp only
  rw [hmsg]

/-- C3: when no pattern rule hits the lowercased text and no enabled signal
rule fires on any (convertible) evidence item, classify resolves to intent
unknown with confidence 0.45 and urgency 10. -/
theorem C3_unknown_default (rm : String → String → Bool) (text : String)
    (evidence : List Evidence) (db : RuleDB)
    (hpat : ∀ r ∈ db.patterns, patternHit rm text.toLower r = false)
    (hsig : ∀ ev ∈ evidence, ∃ c, pyFloat ev.conf = some c ∧
      ∀ r ∈ db.signalRules, r.enabled = true →
        signalFires r ev.source ev.feature ev.value.toLower c = false) :
    ∃ tr, classify rm text evidence db =
      .ok ⟨"unknown", 0.45, 10, some tr⟩ := by
  have hsig' : ∀ ev ∈ evidence, ∃ c, pyFloat ev.conf = some c ∧
      ∀ r ∈ db.signalRules.filter (fun r => r.enabled),
        signalFires r ev.source ev.feature ev.value.toLower c = false := by
    intro ev hev
    obtain ⟨c, hc, hf⟩ := hsig ev hev
    refine ⟨c, hc, ?_⟩
    intro r hr
    rw [List.mem_filter] at hr
    exact hf r hr.1 hr.2
  obtain ⟨acc', hok, hsc, -⟩ := score_signal_rules_no_fire db evidence
    (textPhase rm db text.toLower).2.2 hsig'
  have htp := textPhase_no_hits rm db text.toLower hpat
  refine ⟨acc'.trace ++ [.finalUnknown], ?_⟩
  unfold classify
  dsimp only
  rw [hok]
  simp only [hsc, htp.1]
  rfl

/-- C3 witness: with the dbQuiet rule table, a text hitting no pattern and an
evidence item firing no signal rule, classify returns unknown / 0.45 / 10. -/
theorem C3_unknown_default_witness :
    ∃ tr, classify (fun _ _ => false) "hello there" [evQuiet] dbQuiet =
      .ok ⟨"unknown", 0.45, 10, some tr⟩ :=
  C3_unknown_default (fun _ _ => false) "hello there" [evQuiet] dbQuiet
    (by with_unfolding_all decide)
    (by
      intro ev hev
      rw [List.mem_singleton] at hev
      subst hev
      exact ⟨0.9, rfl, by with_unfolding_all decide⟩)

/-- C4: the confidence mapping raw ↦ clamp(0.5 + 0.15 raw, 0.4, 0.95) is
monotone non-decreasing in raw and its value always lies in [0.4, 0.95]. -/
theorem C4_confidence_monotone_bounded :
    (∀ a b : ℚ, a ≤ b → _confidence a ≤ _confidence b) ∧
    (∀ raw : ℚ, 0.4 ≤ _confidence raw ∧ _confidence raw ≤ 0.95) := by
  constructor
  · intro a b hab
    unfold _confidence
    have h : (0.5 : ℚ) + 0.15 * a ≤ 0.5 + 0.15 * b := by linarith
    exact max_le_max le_rfl (min_le_min le_rfl h)
  · intro raw
    refine ⟨le_max_left _ _, ?_⟩
    unfold _confidence
    exact max_le (by norm_num) (min_le_left _ _)

/-- C4 witness: monotonicity at 0 ≤ 1 and the bounds at raw = 7. -/
theorem C4_confidence_monotone_bounded_witness :
    _confidence 0 ≤ _confidence 1 ∧
    (0.4 ≤ _confidence 7 ∧ _confidence 7 ≤ 0.95) :=
  ⟨C4_confidence_monotone_bounded.1 0 1 (by norm_num),
   C4_confidence_monotone_bounded.2 7⟩

/-- C5 counterexample: an enabled rule with weight 0 and urgency 0 matching
an evidence item of confidence 1. The claim requires adding exactly
weight * confidence = 0 and appending urgency 0; the code instead adds
1 * 1 = 1 (0 is falsy, so the weight is replaced by 1.0) and appends 10. -/
theorem C5_signal_contribution_counterexample :
    (signalRuleStep "vision" "person_present" "true" 1 ⟨[], [], []⟩
      ruleZeroW).scores = [("visitor", 1)] ∧
    (signalRuleStep "vision" "person_present" "true" 1 ⟨[], [], []⟩
      ruleZeroW).urgencies = [("visitor", [10])] ∧
    ((1 : ℚ) ≠ 0 * 1 ∧ (10 : Int) ≠ 0) := by
  with_unfolding_all decide

/-- C5 amended: for an evidence item (with convertible confidence c) and an
enabled rule sharing source and feature: if c is below the effective
min_conf, the rule contributes nothing to scores or urgency lists; otherwise
on an operator match it adds w * c to the target intent where w is the rule
weight with NULL or 0 replaced by 1.0, and appends the rule urgency with NULL
or 0 replaced by 10. -/
theorem C5_signal_contribution (r : SignalRuleRow) (ev : Evidence) (c : ℚ)
    (acc : SigAcc) (_hconv : pyFloat ev.conf = some c)
    (hsrc : r.source = ev.source) (hfeat : r.feature = ev.feature) :
    (c < pyOrQ r.min_conf 0 →
      (signalRuleStep ev.source ev.feature ev.value.toLower c acc r).scores =
        acc.scores ∧
      (signalRuleStep ev.source ev.feature ev.value.toLower c acc r).urgencies
        = acc.urgencies) ∧
    (¬ c < pyOrQ r.min_conf 0 →
      opMatches r.operator r.value.toLower ev.value.toLower = true →
      (signalRuleStep ev.source ev.feature ev.value.toLower c acc r).scores =
        addScore acc.scores r.intent_name (pyOrQ r.weight 1 * c) ∧
      (signalRuleStep ev.source ev.feature ev.value.toLower c acc r).urgencies
        = addUrgs acc.urgencies r.intent_name [pyOrI r.urgency 10]) := by
  have hne : ¬ (r.source ≠ ev.source ∨ r.feature ≠ ev.feature) := by
    simp [hsrc, hfeat]
  constructor
  · intro hlt
    unfold signalRuleStep
    dsimp only
    rw [if_neg hne, if_pos hlt]
    exact ⟨rfl, rfl⟩
  · intro hge hmatch
    unfold signalRuleStep
    dsimp only
    rw [if_neg hne, if_neg hge, if_pos hmatch]
    exact ⟨rfl, rfl⟩

/-- C5 witness: against ruleUniform, the matching evidence item with
confidence 0.2 (below min_conf 0.3) contributes nothing, and the one with
confidence 0.8 adds 0.5 * 0.8 with urgency 90. -/
theorem C5_signal_contribution_witness :
    ((signalRuleStep evSheriffLo.source evSheriffLo.feature
        evSheriffLo.value.toLower 0.2 ⟨[], [], []⟩ ruleUniform).scores = [] ∧
     (signalRuleStep evSheriffLo.source evSheriffLo.feature
        evSheriffLo.value.toLower 0.2 ⟨[], [], []⟩ ruleUniform).urgencies = [])
    ∧
    ((signalRuleStep evSheriffHi.source evSheriffHi.feature
        evSheriffHi.value.toLower 0.8 ⟨[], [], []⟩ ruleUniform).scores =
        addScore [] "authority_urgent" (pyOrQ ruleUniform.weight 1 * 0.8) ∧
     (signalRuleStep evSheriffHi.source evSheriffHi.feature
        evSheriffHi.value.toLower 0.8 ⟨[], [], []⟩ ruleUniform).urgencies =
        addUrgs [] "authority_urgent" [pyOrI ruleUniform.urgency 10]) :=
  ⟨(C5_signal_contribution ruleUniform evSheriffLo 0.2 ⟨[], [], []⟩ rfl rfl
      rfl).1 (by with_unfolding_all decide),
   (C5_signal_contribution ruleUniform evSheriffHi 0.8 ⟨[], [], []⟩ rfl rfl
      rfl).2 (by with_unfolding_all decide) (by with_unfolding_all decide)⟩

/-- C6 counterexample: a matching non-regex pattern rule that names both a
target intent (weight 1) and a target entity (entity weight 2). The claim
requires the entity weight to be added INSTEAD of the rule weight, leaving
the target intent at 0; the code adds both, so the target intent score is 1,
not 0. -/
theorem C6_entity_instead_counterexample :
    patternStep (fun _ _ => false)
      (buildEntities [⟨some "amazon_driver", some "package_courier", some 2⟩])
      "a package arrived" []
      ⟨"package", false, "package_drop", "amazon_driver", some 1⟩ =
      [("package_drop", 1), ("package_courier", 2)] ∧
    scoreOf [("package_drop", (1 : ℚ)), ("package_courier", 2)]
      "package_drop" ≠ 0 := by
  with_unfolding_all decide

/-- C6 amended: a matching pattern rule that names both a target intent and a
target entity resolving to a nonempty tag adds BOTH the rule weight to the
target intent and the entity weight to the tag of the entity. -/
theorem C6_both_weights_added (rm : String → String → Bool)
    (entities : List (String × (String × ℚ))) (t : String)
    (acc : List (String × ℚ)) (r : PatternRow) (tag : String) (ew : ℚ)
    (hhit : patternHit rm t r = true) (hint : r.intent_name ≠ "")
    (hent : r.entity_name ≠ "")
    (hl : dictGet entities r.entity_name ("", 0) = (tag, ew))
    (htag : tag ≠ "") :
    patternStep rm entities t acc r =
      addScore (addScore acc r.intent_name (pyOrQ r.weight 0)) tag
        (pyOrQ (some ew) 0) := by
  unfold patternStep
  dsimp only
  rw [if_pos hhit, if_pos hint, if_pos hent, hl]
  dsimp only
  rw [if_pos htag]

/-- C6 amended witness: concrete rule and entity table; both weights land. -/
theorem C6_both_weights_added_witness :
    patternStep (fun _ _ => false)
      (buildEntities [⟨some "amanda", some "neighbor_help", some 2⟩])
      "hi amanda" [] ⟨"amanda", false, "package_drop", "amanda", some 1⟩ =
      addScore (addScore [] "package_drop"
        (pyOrQ (PatternRow.weight
          ⟨"amanda", false, "package_drop", "amanda", some 1⟩) 0))
        "neighbor_help" (pyOrQ (some 2) 0) :=
  C6_both_weights_added (fun _ _ => false)
    (buildEntities [⟨some "amanda", some "neighbor_help", some 2⟩])
    "hi amanda" [] ⟨"amanda", false, "package_drop", "amanda", some 1⟩
    "neighbor_help" 2
    (by with_unfolding_all decide) (by decide) (by decide)
    (by with_unfolding_all decide) (by decide)

/-- C7 counterexample: an event whose payload is present with
num_vehicles = 0 and num_people = 0 and whose kind is vehicle. The claim
requires the payload counts (0, 0) to be used exactly when the payload is
present; the code still applies the kind heuristic and reports 1 vehicle. -/
theorem C7_payload_exact_counterexample :
    _extract_counts evZeroPayload = (1, 0) ∧
    ((1, 0) : Int × Int) ≠ (0, 0) := by
  with_unfolding_all decide

/-- C7 amended: with a payload present, each count is taken from the payload
except that a zero count still falls back to the kind heuristic; with no
payload the counts are purely kind-based (1 vehicle for kind vehicle, 1
person for kind person, else 0). -/
theorem C7_counts_amended (evt : Event) :
    (∀ p, evt.payload = some p →
      _extract_counts evt =
        (if p.num_vehicles = 0 ∧ evt.kind = some "vehicle" then 1
         else p.num_vehicles,
         if p.num_people = 0 ∧ evt.kind = some "person" then 1
         else p.num_people)) ∧
    (evt.payload = none →
      _extract_counts evt =
        (if evt.kind = some "vehicle" then 1 else 0,
         if evt.kind = some "person" then 1 else 0)) := by
  constructor
  · intro p hp
    unfold _extract_counts
    rw [hp]
  · intro hp
    unfold _extract_counts
    rw [hp]
    simp

/-- C7 amended witness: evTest carries payload (1, 0), and a bare person
event with no payload infers (0, 1). -/
theorem C7_counts_amended_witness :
    _extract_counts evTest = (1, 0) ∧
    _extract_counts evPersonNoPayload = (0, 1) := by
  constructor
  · have h := (C7_counts_amended evTest).1 { num_vehicles := 1, num_people := 0 }
      (by with_unfolding_all decide)
    rw [h]
    with_unfolding_all decide
  · have h := (C7_counts_amended evPersonNoPayload).2 rfl
    rw [h]
    with_unfolding_all decide

/-- C8 counterexample: an evidence list containing one item whose confidence
cannot be converted to a float. The claim requires that item to be skipped
and a Classified returned; the code instead propagates the conversion error
out of classify. -/
theorem C8_malformed_skip_counterexample :
    classify (fun _ _ => false) "hello" [evBroken] dbQuiet =
      .error "could not convert evidence conf to float" := by
  with_unfolding_all rfl

/-- C8 amended: whenever the evidence list contains a malformed item (one
whose confidence float() cannot convert), classify raises — it propagates an
error instead of skipping the item and returning a Classified. -/
theorem C8_malformed_raises (rm : String → String → Bool) (text : String)
    (evidence : List Evidence) (db : RuleDB)
    (h : ∃ ev ∈ evidence, pyFloat ev.conf = none) :
    ∃ msg, classify rm text evidence db = .error msg := by
  obtain ⟨msg, hmsg⟩ := score_signal_rules_error db evidence
    (textPhase rm db text.toLower).2.2 h
  refine ⟨msg, ?_⟩
  unfold classify
  dsimp only
  rw [hmsg]

/-- C8 amended witness: the broken evidence item makes classify error. -/
theorem C8_malformed_raises_witness :
    ∃ msg, classify (fun _ _ => false) "hi" [evQuiet, evBroken] dbQuiet =
      .error msg :=
  C8_malformed_raises (fun _ _ => false) "hi" [evQuiet, evBroken] dbQuiet
    ⟨evBroken, by simp, rfl⟩

end EchoBell
